import Mathlib

/-!
Shallow embedding of the bookstore application's core (app.py): the book
cache, connection-pool sizing, the stock-update operation, the add-book
operation, the multi-line sale workflow, and the book-listing queries.
The database tables are modelled as Lean lists of rows in stored order;
SQL `SELECT ... WHERE Bookid = x` is `List.find?`, an `UPDATE ... WHERE`
maps over all matching rows, and `ORDER BY` is an insertion sort on the
named columns.  Form fields arrive as strings, exactly as Flask's
`request.form` delivers them.  Strings are modelled as lists of
characters so that every operation is structurally recursive, and
Python's `str.strip` / `int` / `str.isdigit` are modelled over ASCII
strings.
-/

set_option autoImplicit false

namespace Bookstore

/-- Python strings, as character lists. -/
abbrev Str := List Char

/-- Coerce a Lean string literal into the model's string type. -/
def S (s : String) : Str := s.data

/-- Python `s.strip()` over ASCII strings: drop whitespace from both
ends. -/
def pyStrip (s : Str) : Str :=
  ((s.dropWhile Char.isWhitespace).reverse.dropWhile Char.isWhitespace).reverse

/-- Python `s.isdigit()` over ASCII strings: nonempty and all decimal
digits. -/
def pyStrIsdigit (s : Str) : Bool :=
  !s.isEmpty && s.all Char.isDigit

/-- Value of a run of decimal digits. -/
def digitsVal (s : Str) : Nat :=
  s.foldl (fun n c => n * 10 + (c.toNat - ('0').toNat)) 0

/-- Parse a run of decimal digits (no sign, no spaces). -/
def pyDigits? (s : Str) : Option Nat :=
  if ¬ s = [] ∧ s.all Char.isDigit then some (digitsVal s) else none

/-- Python `int(s)` on an ASCII string: optional surrounding whitespace,
optional sign, then decimal digits; `None` models the `ValueError`. -/
def pyParseInt (s0 : Str) : Option Int :=
  match pyStrip s0 with
  | '-' :: rest => (pyDigits? rest).map (fun n => -(n : Int))
  | '+' :: rest => (pyDigits? rest).map (fun n => (n : Int))
  | s => (pyDigits? s).map (fun n => (n : Int))

/-- A row of the `Available_Books` table (schema in `init_db`). -/
structure Book where
  bookid : Str
  bookName : Str
  genre : Str
  quantity : Int
  author : Str
  publication : Str
  price : Int
  deriving DecidableEq, Repr

/-- A row of the `Sales` table (ignoring the auto-increment id and the
default-now timestamp, which no claim mentions). -/
structure SaleLine where
  transaction_id : Str
  customerName : Str
  phoneNumber : Str
  bookid : Str
  bookName : Str
  quantity : Int
  price : Int
  deriving DecidableEq, Repr

instance exceptDecEq {ε α : Type} [DecidableEq ε] [DecidableEq α] :
    DecidableEq (Except ε α) := fun x y =>
  match x, y with
  | .error a, .error b =>
    if h : a = b then .isTrue (by rw [h])
    else .isFalse (fun hc => h (by injection hc))
  | .error _, .ok _ => .isFalse (fun hc => Except.noConfusion hc)
  | .ok _, .error _ => .isFalse (fun hc => Except.noConfusion hc)
  | .ok a, .ok b =>
    if h : a = b then .isTrue (by rw [h])
    else .isFalse (fun hc => h (by injection hc))

/-- The in-memory book cache `_book_cache`: a Python dict from book id to
`(book_data, timestamp)`.  Modelled as an association list with unique
keys; timestamps are naturals (seconds). -/
abbrev Cache := List (Str × Book × Nat)

/-- `CACHE_DURATION = timedelta(minutes=5)`, in seconds. -/
def CACHE_DURATION : Nat := 5 * 60

/-- Dict lookup `_book_cache[book_id]` (`None` when the key is absent). -/
def cacheLookup (c : Cache) (k : Str) : Option (Book × Nat) :=
  (c.find? (fun e => e.1 = k)).map (fun e => e.2)

/-- Dict deletion `del _book_cache[book_id]`. -/
def cacheErase (c : Cache) (k : Str) : Cache :=
  c.filter (fun e => ¬ e.1 = k)

/-- `get_cached_book(book_id)` at current time `now`: returns the cached
book if present and younger than `CACHE_DURATION`; evicts and misses when
the entry has expired; misses when absent.  Returns the value and the
cache after the call. -/
def get_cached_book (now : Nat) (c : Cache) (book_id : Str) :
    Option Book × Cache :=
  match cacheLookup c book_id with
  | none => (none, c)
  | some (book, timestamp) =>
      if now - timestamp < CACHE_DURATION then (some book, c)
      else (none, cacheErase c book_id)

/-- `cache_book(book_id, book_data)`: dict assignment
`_book_cache[book_id] = (book_data, datetime.now())`. -/
def cache_book (now : Nat) (c : Cache) (book_id : Str) (book_data : Book) :
    Cache :=
  (book_id, book_data, now) :: cacheErase c book_id

/-- `clear_book_cache()`: `_book_cache.clear()`. -/
def clear_book_cache (_c : Cache) : Cache := []

/-- `SELECT * FROM Available_Books WHERE Bookid = %s` + `fetchone()`. -/
def findBook (db : List Book) (book_id : Str) : Option Book :=
  db.find? (fun b => b.bookid = book_id)

/-- `UPDATE Available_Books SET Quantity = %s WHERE Bookid = %s`
(absolute assignment, as in `update_stock`). -/
def setQty (db : List Book) (book_id : Str) (n : Int) : List Book :=
  db.map (fun b =>
    if b.bookid = book_id then
      ⟨b.bookid, b.bookName, b.genre, n, b.author, b.publication, b.price⟩
    else b)

/-- `UPDATE Available_Books SET Quantity = Quantity - %s WHERE Bookid = %s`
(relative decrement, as in the sale loop). -/
def decQty (db : List Book) (book_id : Str) (q : Int) : List Book :=
  db.map (fun b =>
    if b.bookid = book_id then
      ⟨b.bookid, b.bookName, b.genre, b.quantity - q, b.author,
        b.publication, b.price⟩
    else b)

/-- The distinct failure kinds of `update_stock`, one per flash message. -/
inductive StockError where
  | missingFields
  | invalidAction
  | nonPositiveQuantity
  | invalidQuantity
  | notFound
  | insufficientStock
  deriving DecidableEq, Repr

/-- Outcome of `update_stock`: the result (carrying the computed
`new_quantity` on success), the `Available_Books` table and the cache
after the call. -/
structure StockOut where
  result : Except StockError Int
  db : List Book
  cache : Cache
  deriving DecidableEq, Repr

/-- The `/stock/update` POST handler `update_stock`, translated branch by
branch: trim the three form fields, require all present, require the
action to be `add` or `subtract`, parse the quantity as a positive
integer, fetch the book, compute `new_quantity`, refuse a subtraction
that would go negative, write the new quantity, and clear the cache after
commit. -/
def update_stock (book_id0 action0 quantity0 : Str)
    (db : List Book) (cache : Cache) : StockOut :=
  let book_id := pyStrip book_id0
  let action := pyStrip action0
  let quantity := pyStrip quantity0
  if book_id = [] ∨ action = [] ∨ quantity = [] then
    ⟨.error .missingFields, db, cache⟩
  else if ¬ (action = S "add" ∨ action = S "subtract") then
    ⟨.error .invalidAction, db, cache⟩
  else
    match pyParseInt quantity with
    | none => ⟨.error .invalidQuantity, db, cache⟩
    | some q =>
      if q ≤ 0 then ⟨.error .nonPositiveQuantity, db, cache⟩
      else
        match findBook db book_id with
        | none => ⟨.error .notFound, db, cache⟩
        | some book =>
          if action = S "add" then
            ⟨.ok (book.quantity + q), setQty db book_id (book.quantity + q),
              clear_book_cache cache⟩
          else
            if book.quantity - q < 0 then
              ⟨.error .insufficientStock, db, cache⟩
            else
              ⟨.ok (book.quantity - q), setQty db book_id (book.quantity - q),
                clear_book_cache cache⟩

/-- The distinct failure kinds of `add_book`, one per flash message.
`duplicateKey` is the database's `Duplicate entry` error on the `Bookid`
primary key. -/
inductive AddError where
  | missingFields
  | negativeValue
  | invalidNumber
  | duplicateKey
  deriving DecidableEq, Repr

/-- Outcome of `add_book`. -/
structure AddOut where
  result : Except AddError Unit
  db : List Book
  cache : Cache
  deriving DecidableEq, Repr

/-- The `/stock/add` POST handler `add_book`: trim all form fields,
require id, name, quantity and price present, parse quantity and price as
non-negative integers, insert the row (the `Bookid` primary key rejects a
duplicate id), and clear the cache after commit. -/
def add_book (book_id0 book_name0 genre0 author0 publication0
    quantity0 price0 : Str) (db : List Book) (cache : Cache) : AddOut :=
  let book_id := pyStrip book_id0
  let book_name := pyStrip book_name0
  let genre := pyStrip genre0
  let author := pyStrip author0
  let publication := pyStrip publication0
  let quantity := pyStrip quantity0
  let price := pyStrip price0
  if book_id = [] ∨ book_name = [] ∨ quantity = [] ∨ price = [] then
    ⟨.error .missingFields, db, cache⟩
  else
    match pyParseInt quantity, pyParseInt price with
    | some q, some p =>
      if q < 0 ∨ p < 0 then ⟨.error .negativeValue, db, cache⟩
      else if (db.find? (fun b => b.bookid = book_id)).isSome then
        ⟨.error .duplicateKey, db, cache⟩
      else
        ⟨.ok (), db ++ [⟨book_id, book_name, genre, q, author, publication, p⟩],
          clear_book_cache cache⟩
    | _, _ => ⟨.error .invalidNumber, db, cache⟩

/-- The distinct failure kinds of the `sell` POST handler, one per flash
message. -/
inductive SellError where
  | missingFields
  | invalidPhone
  | duplicateBook (book_id : Str)
  | emptyTransaction
  | nonPositiveQuantity (book_id : Str)
  | invalidQuantity (book_id : Str)
  | bookNotFound (book_id : Str)
  | insufficientStock (book_id : Str)
  deriving DecidableEq, Repr

/-- One entry of `books_to_sell`: the data captured for a line during the
validation pass. -/
structure LineItem where
  book_id : Str
  book_name : Str
  quantity : Int
  price : Int
  deriving DecidableEq, Repr

/-- The success payload of a sale: the transaction id, `total_amount`,
and the `books_to_sell` breakdown. -/
structure SellOk where
  transaction_id : Str
  total : Int
  lines : List LineItem
  deriving DecidableEq, Repr

/-- Outcome of `sell`: the result plus the `Available_Books` table, the
`Sales` table and the cache after the call. -/
structure SellOut where
  result : Except SellError SellOk
  db : List Book
  sales : List SaleLine
  cache : Cache
  deriving DecidableEq, Repr

/-- The normalization loop of `sell` (building `valid_book_ids` /
`valid_quantities`): keep a pair only when both the book id and the
quantity are nonempty before and after stripping; reject a stripped book
id already collected. -/
def normalize : List (Str × Str) → List (Str × Str) →
    Except Str (List (Str × Str))
  | [], acc => .ok acc
  | (book_id, quantity) :: rest, acc =>
    if ¬ book_id = [] ∧ ¬ pyStrip book_id = [] ∧ ¬ quantity = [] ∧
        ¬ pyStrip quantity = [] then
      let bid := pyStrip book_id
      if bid ∈ acc.map Prod.fst then .error bid
      else normalize rest (acc ++ [(bid, pyStrip quantity)])
    else normalize rest acc

/-- The validation loop of `sell` over the normalized pairs: parse each
quantity as a positive integer, fetch the book, require sufficient stock,
and accumulate `books_to_sell` and `total_amount`. -/
def validateLoop (db : List Book) : List (Str × Str) →
    List LineItem → Int → Except SellError (List LineItem × Int)
  | [], acc, tot => .ok (acc, tot)
  | (bid, qs) :: rest, acc, tot =>
    match pyParseInt qs with
    | none => .error (.invalidQuantity bid)
    | some q =>
      if q ≤ 0 then .error (.nonPositiveQuantity bid)
      else
        match findBook db bid with
        | none => .error (.bookNotFound bid)
        | some book =>
          if book.quantity < q then .error (.insufficientStock bid)
          else validateLoop db rest
            (acc ++ [⟨bid, book.bookName, q, book.price⟩])
            (tot + book.price * q)

/-- The `Sales` row inserted for one line of a sale. -/
def mkSaleLine (tx cust phone : Str) (l : LineItem) : SaleLine :=
  ⟨tx, cust, phone, l.book_id, l.book_name, l.quantity, l.price⟩

/-- The insert-and-decrement loop of `sell`: for each `books_to_sell`
entry, insert one `Sales` row and decrement the book's quantity. -/
def applyLoop (tx cust phone : Str) : List LineItem → List Book →
    List SaleLine → List Book × List SaleLine
  | [], db, sales => (db, sales)
  | l :: rest, db, sales =>
      applyLoop tx cust phone rest (decQty db l.book_id l.quantity)
        (sales ++ [mkSaleLine tx cust phone l])

/-- The `/sell` POST handler, translated control-flow point by point:
require customer, phone and at least one book field; require the phone to
be exactly 10 digits; normalize the (book id, quantity) pairs, rejecting
duplicates; reject when nothing remains; validate every line against the
pre-call table; then insert all `Sales` rows and apply all decrements,
commit, and clear the cache.  `transaction_id` (built from the clock and
a random number in the source) is a parameter. -/
def sell (customer_name0 phone_number0 : Str)
    (book_ids quantities : List Str) (transaction_id : Str)
    (db : List Book) (sales : List SaleLine) (cache : Cache) : SellOut :=
  let customer_name := pyStrip customer_name0
  let phone_number := pyStrip phone_number0
  if customer_name = [] ∨ phone_number = [] ∨ book_ids = [] then
    ⟨.error .missingFields, db, sales, cache⟩
  else if ¬ (pyStrIsdigit phone_number = true ∧ phone_number.length = 10) then
    ⟨.error .invalidPhone, db, sales, cache⟩
  else
    match normalize (book_ids.zip quantities) [] with
    | .error bid => ⟨.error (.duplicateBook bid), db, sales, cache⟩
    | .ok kept =>
      if kept = [] then ⟨.error .emptyTransaction, db, sales, cache⟩
      else
        match validateLoop db kept [] 0 with
        | .error e => ⟨.error e, db, sales, cache⟩
        | .ok (lines, total) =>
          let out := applyLoop transaction_id customer_name phone_number
            lines db sales
          ⟨.ok ⟨transaction_id, total, lines⟩, out.1, out.2,
            clear_book_cache cache⟩

/-- The pool-size computation in `get_connection_pool`:
`int(os.getenv('DB_POOL_SIZE', '10'))`, falling back to 10 with a warning
when the value does not parse or lies outside `[1, 100]`.  Returns the
pool size and whether a warning was logged. -/
def poolSizeOf (envVal : Option Str) : Int × Bool :=
  let raw := envVal.getD (S "10")
  match pyParseInt raw with
  | none => (10, true)
  | some n => if n < 1 ∨ n > 100 then (10, true) else (n, false)

/-- Strict lexicographic comparison of strings, character by character
(the collation used to model `ORDER BY` on a VARCHAR column). -/
def strLtB : Str → Str → Bool
  | [], [] => false
  | [], _ :: _ => true
  | _ :: _, [] => false
  | c :: cs, d :: ds =>
    if c.toNat < d.toNat then true
    else if c.toNat = d.toNat then strLtB cs ds
    else false

/-- Reflexive string comparison derived from `strLtB`. -/
def strLeB (a b : Str) : Bool := !(strLtB b a)

/-- The `ORDER BY Genre, BookName` comparison: lexicographic on the two
columns. -/
def bookLeB (a b : Book) : Bool :=
  strLtB a.genre b.genre ||
    (decide (a.genre = b.genre) && strLeB a.bookName b.bookName)

/-- Insertion into a sorted list, under a boolean comparison. -/
def orderedInsertB {α : Type} (le : α → α → Bool) (a : α) :
    List α → List α
  | [] => [a]
  | b :: l => if le a b then a :: b :: l else b :: orderedInsertB le a l

/-- Insertion sort under a boolean comparison: the model of SQL
`ORDER BY`. -/
def insertionSortB {α : Type} (le : α → α → Bool) : List α → List α
  | [] => []
  | a :: l => orderedInsertB le a (insertionSortB le l)

/-- A list is sorted when every adjacent pair respects the comparison. -/
def SortedB {α : Type} (le : α → α → Bool) (l : List α) : Prop :=
  l.Chain' (fun x y => le x y = true)

/-- The GET branch of `/sell`:
`SELECT * FROM Available_Books WHERE Quantity > 0 ORDER BY Genre,
BookName`. -/
def sellGetBooks (db : List Book) : List Book :=
  insertionSortB bookLeB (db.filter (fun b => 0 < b.quantity))

/-- The `/stock` page: `SELECT * FROM Available_Books ORDER BY Genre,
BookName`. -/
def stockBooks (db : List Book) : List Book :=
  insertionSortB bookLeB db

/-- The projection returned by `/api/books/all`: `Bookid, BookName,
Price, Quantity`. -/
structure BookJson where
  bookid : Str
  bookName : Str
  price : Int
  quantity : Int
  deriving DecidableEq, Repr

def projAll (b : Book) : BookJson :=
  ⟨b.bookid, b.bookName, b.price, b.quantity⟩

/-- The `/api/books/all` handler `get_all_books`:
`SELECT Bookid, BookName, Price, Quantity FROM Available_Books WHERE
Quantity > 0` — no `ORDER BY` clause, so the rows come back in the
table's stored order.  Returns the book list and the reported `count`. -/
def get_all_books (db : List Book) : List BookJson × Nat :=
  let books := (db.filter (fun b => 0 < b.quantity)).map projAll
  (books, books.length)

/-- The keep-condition of the normalization loop, as a predicate on one
(book id, quantity) pair: both components nonempty before and after
stripping. -/
def keepPair (p : Str × Str) : Bool :=
  decide (¬ p.1 = [] ∧ ¬ pyStrip p.1 = [] ∧ ¬ p.2 = [] ∧
    ¬ pyStrip p.2 = [])

/-- Strip both components of a pair, as the normalization loop does to
the pairs it keeps. -/
def stripPair (p : Str × Str) : Str × Str := (pyStrip p.1, pyStrip p.2)

/-! ### Shared sample data for witnesses -/

/-- A sample book row used by witness instantiations. -/
def bkA : Book := ⟨S "B1", S "Alpha", S "Fic", 5, S "A", S "P", 100⟩

/-- A second sample book row used by witness instantiations. -/
def bkB : Book := ⟨S "B2", S "Beta", S "Fic", 3, S "B", S "P", 150⟩

/-- A sample two-book table used by witness instantiations. -/
def dbAB : List Book := [bkA, bkB]

/-! ### Claim C4 — cache get/put/expiry -/

/-- Claim C4: for every book id, `get_cached_book` returns a miss both
when no entry is stored and when the stored entry's age is at least the
5-minute TTL; in the expired case the stale entry is evicted as a side
effect, and otherwise get returns exactly the snapshot most recently put
for that id. -/
theorem get_cached_book_spec (now : Nat) (c : Cache) (id : Str) :
    (cacheLookup c id = none → get_cached_book now c id = (none, c)) ∧
    (∀ b t, cacheLookup c id = some (b, t) → CACHE_DURATION ≤ now - t →
      get_cached_book now c id = (none, cacheErase c id)) ∧
    (∀ b t, cacheLookup c id = some (b, t) → now - t < CACHE_DURATION →
      get_cached_book now c id = (some b, c)) ∧
    (∀ b t, now - t < CACHE_DURATION →
      get_cached_book now (cache_book t c id b) id
        = (some b, cache_book t c id b)) := by
  refine ⟨?_, ?_, ?_, ?_⟩
  · intro h
    simp [get_cached_book, h]
  · intro b t h hage
    simp only [get_cached_book, h]
    rw [if_neg (by omega)]
  · intro b t h hlt
    simp only [get_cached_book, h]
    rw [if_pos hlt]
  · intro b t hlt
    have hl : cacheLookup (cache_book t c id b) id = some (b, t) := by
      simp [cacheLookup, cache_book, List.find?]
    simp only [get_cached_book, hl]
    rw [if_pos hlt]

/-- Witness for C4 at concrete inputs: a fresh put is returned, an absent
id misses, and an entry aged exactly the TTL misses and is evicted. -/
theorem get_cached_book_spec_witness :
    get_cached_book 100 (cache_book 50 [] (S "B1") bkA) (S "B1")
        = (some bkA, cache_book 50 [] (S "B1") bkA) ∧
      get_cached_book 100 [] (S "B1") = (none, []) ∧
      get_cached_book 350 [(S "B1", bkA, 50)] (S "B1")
        = (none, cacheErase [(S "B1", bkA, 50)] (S "B1")) :=
  ⟨(get_cached_book_spec 100 [] (S "B1")).2.2.2 bkA 50 (by decide),
   (get_cached_book_spec 100 [] (S "B1")).1 (by decide),
   (get_cached_book_spec 350 [(S "B1", bkA, 50)] (S "B1")).2.1 bkA 50
     (by decide) (by decide)⟩

/-! ### Claim C8 — pool size configuration -/

/-- Claim C8: a configured pool size outside `[1, 100]` or that does not
parse as an integer falls back to the default 10 with a warning; a value
inside `[1, 100]` is used exactly as the pool capacity, with no
warning. -/
theorem pool_size_config_spec (s : Str) :
    (pyParseInt s = none → poolSizeOf (some s) = (10, true)) ∧
    (∀ n : Int, pyParseInt s = some n → (n < 1 ∨ n > 100) →
      poolSizeOf (some s) = (10, true)) ∧
    (∀ n : Int, pyParseInt s = some n → 1 ≤ n → n ≤ 100 →
      poolSizeOf (some s) = (n, false)) := by
  refine ⟨?_, ?_, ?_⟩
  · intro h
    simp [poolSizeOf, h]
  · intro n h hout
    simp only [poolSizeOf, Option.getD, h]
    rw [if_pos (by omega)]
  · intro n h h1 h100
    simp only [poolSizeOf, Option.getD, h]
    rw [if_neg (by omega)]

/-- Witness for C8 at concrete inputs: `200` and `abc` fall back to 10
with a warning, `42` is accepted as is. -/
theorem pool_size_config_spec_witness :
    poolSizeOf (some (S "200")) = (10, true) ∧
      poolSizeOf (some (S "abc")) = (10, true) ∧
      poolSizeOf (some (S "42")) = (42, false) :=
  ⟨(pool_size_config_spec (S "200")).2.1 200 (by decide) (by decide),
   (pool_size_config_spec (S "abc")).1 (by decide),
   (pool_size_config_spec (S "42")).2.2 42 (by decide) (by decide)
     (by decide)⟩

/-! ### Claim C3 — update_stock never drives stock negative -/

lemma pyParseInt_nil : pyParseInt ([] : Str) = none := by decide

lemma findBook_mem {db : List Book} {id : Str} {b : Book}
    (h : findBook db id = some b) : b ∈ db :=
  List.mem_of_find?_eq_some h

lemma findBook_bookid {db : List Book} {id : Str} {b : Book}
    (h : findBook db id = some b) : b.bookid = id := by
  have := List.find?_some h
  exact of_decide_eq_true this

lemma mem_setQty {db : List Book} {id : Str} {n : Int} {bk : Book}
    (h : bk ∈ setQty db id n) : bk ∈ db ∨ bk.quantity = n := by
  unfold setQty at h
  rcases List.mem_map.1 h with ⟨a, ha, rfl⟩
  by_cases hmatch : a.bookid = id
  · right
    rw [if_pos hmatch]
  · left
    rw [if_neg hmatch]
    exact ha

lemma quantity_of_mem_setQty {db : List Book} {id : Str} {n : Int}
    {bk : Book} (h : bk ∈ setQty db id n) (hid : bk.bookid = id) :
    bk.quantity = n := by
  unfold setQty at h
  rcases List.mem_map.1 h with ⟨a, _, rfl⟩
  by_cases hmatch : a.bookid = id
  · rw [if_pos hmatch]
  · rw [if_neg hmatch] at hid ⊢
    exact absurd hid hmatch

/-- Any `update_stock` call preserves non-negativity of every stored
quantity. -/
lemma update_stock_nonneg (book_id0 action0 quantity0 : Str)
    (db : List Book) (cache : Cache)
    (hnn : ∀ bk ∈ db, 0 ≤ bk.quantity) :
    ∀ bk ∈ (update_stock book_id0 action0 quantity0 db cache).db,
      0 ≤ bk.quantity := by
  intro bk hbk
  unfold update_stock at hbk
  dsimp only at hbk
  split at hbk
  · exact hnn bk hbk
  split at hbk
  · exact hnn bk hbk
  split at hbk
  · exact hnn bk hbk
  rename_i q hq
  split at hbk
  · exact hnn bk hbk
  rename_i hqpos
  split at hbk
  · exact hnn bk hbk
  rename_i book hbook
  split at hbk
  · rcases mem_setQty hbk with h | h
    · exact hnn bk h
    · rw [h]
      have := hnn book (findBook_mem hbook)
      omega
  · split at hbk
    · exact hnn bk hbk
    · rename_i hge
      rcases mem_setQty hbk with h | h
      · exact hnn bk h
      · rw [h]
        omega

/-- Reachable-branch characterization of `update_stock` once the input is
well formed and the book exists. -/
lemma update_stock_eq (book_id0 action0 quantity0 : Str) (db : List Book)
    (cache : Cache) (hbid : ¬ pyStrip book_id0 = [])
    (hact : pyStrip action0 = S "add" ∨ pyStrip action0 = S "subtract")
    (q : Int) (hq : pyParseInt (pyStrip quantity0) = some q)
    (hqpos : 0 < q) (b : Book)
    (hb : findBook db (pyStrip book_id0) = some b) :
    update_stock book_id0 action0 quantity0 db cache =
      if pyStrip action0 = S "add" then
        ⟨.ok (b.quantity + q), setQty db (pyStrip book_id0) (b.quantity + q),
          []⟩
      else if b.quantity - q < 0 then ⟨.error .insufficientStock, db, cache⟩
      else
        ⟨.ok (b.quantity - q), setQty db (pyStrip book_id0) (b.quantity - q),
          []⟩ := by
  have h1 : ¬ (pyStrip book_id0 = [] ∨ pyStrip action0 = [] ∨
      pyStrip quantity0 = []) := by
    push_neg
    refine ⟨hbid, ?_, ?_⟩
    · rcases hact with h | h <;> rw [h] <;> decide
    · intro hnil
      rw [hnil, pyParseInt_nil] at hq
      exact Option.noConfusion hq
  unfold update_stock
  rw [if_neg h1, if_neg (not_not_intro hact)]
  simp only [hq]
  rw [if_neg (by omega : ¬ q ≤ 0)]
  simp only [hb]
  rfl

/-- Claim C3: the stock-update operation never drives a book's quantity
below zero.  A subtraction exceeding the on-hand quantity fails with the
insufficient-stock error and leaves the table unchanged; otherwise the
delta is applied and the matching rows carry exactly the old quantity
plus the delta; and any call preserves non-negativity of all
quantities. -/
theorem update_stock_adjust_spec (book_id0 action0 quantity0 : Str)
    (db : List Book) (cache : Cache) (hbid : ¬ pyStrip book_id0 = [])
    (q : Int) (hq : pyParseInt (pyStrip quantity0) = some q)
    (hqpos : 0 < q) (b : Book)
    (hb : findBook db (pyStrip book_id0) = some b) :
    (pyStrip action0 = S "subtract" → b.quantity - q < 0 →
      update_stock book_id0 action0 quantity0 db cache
        = ⟨.error .insufficientStock, db, cache⟩) ∧
    (pyStrip action0 = S "subtract" → 0 ≤ b.quantity - q →
      (update_stock book_id0 action0 quantity0 db cache).result
          = .ok (b.quantity - q) ∧
        (update_stock book_id0 action0 quantity0 db cache).db
          = setQty db (pyStrip book_id0) (b.quantity - q) ∧
        ∀ bk ∈ (update_stock book_id0 action0 quantity0 db cache).db,
          bk.bookid = pyStrip book_id0 → bk.quantity = b.quantity - q) ∧
    (pyStrip action0 = S "add" →
      (update_stock book_id0 action0 quantity0 db cache).result
          = .ok (b.quantity + q) ∧
        (update_stock book_id0 action0 quantity0 db cache).db
          = setQty db (pyStrip book_id0) (b.quantity + q) ∧
        ∀ bk ∈ (update_stock book_id0 action0 quantity0 db cache).db,
          bk.bookid = pyStrip book_id0 → bk.quantity = b.quantity + q) ∧
    ((∀ bk ∈ db, 0 ≤ bk.quantity) →
      ∀ bk ∈ (update_stock book_id0 action0 quantity0 db cache).db,
        0 ≤ bk.quantity) := by
  refine ⟨?_, ?_, ?_, ?_⟩
  · intro hact hneg
    rw [update_stock_eq book_id0 action0 quantity0 db cache hbid
      (Or.inr hact) q hq hqpos b hb, hact]
    rw [if_neg (by decide), if_pos hneg]
  · intro hact hok
    rw [update_stock_eq book_id0 action0 quantity0 db cache hbid
      (Or.inr hact) q hq hqpos b hb, hact]
    rw [if_neg (by decide), if_neg (by omega)]
    refine ⟨rfl, rfl, ?_⟩
    intro bk hmem hid
    exact quantity_of_mem_setQty hmem hid
  · intro hact
    rw [update_stock_eq book_id0 action0 quantity0 db cache hbid
      (Or.inl hact) q hq hqpos b hb, hact]
    rw [if_pos rfl]
    refine ⟨rfl, rfl, ?_⟩
    intro bk hmem hid
    exact quantity_of_mem_setQty hmem hid
  · intro hnn
    exact update_stock_nonneg book_id0 action0 quantity0 db cache hnn

/-- Witness for C3 at concrete inputs: subtracting 9 from a stock of 5
fails and leaves the table unchanged; subtracting 5 yields 0; adding 2
yields 7. -/
theorem update_stock_adjust_spec_witness :
    update_stock (S "B1") (S "subtract") (S "9") dbAB []
        = ⟨.error .insufficientStock, dbAB, []⟩ ∧
      (update_stock (S "B1") (S "subtract") (S "5") dbAB []).result
        = .ok 0 ∧
      (update_stock (S "B1") (S "add") (S "2") dbAB []).result = .ok 7 :=
  ⟨(update_stock_adjust_spec (S "B1") (S "subtract") (S "9") dbAB []
      (by decide) 9 (by decide) (by decide) bkA (by decide)).1
      (by decide) (by decide),
   ((update_stock_adjust_spec (S "B1") (S "subtract") (S "5") dbAB []
      (by decide) 5 (by decide) (by decide) bkA (by decide)).2.1
      (by decide) (by decide)).1.trans (by decide),
   ((update_stock_adjust_spec (S "B1") (S "add") (S "2") dbAB []
      (by decide) 2 (by decide) (by decide) bkA (by decide)).2.2.1
      (by decide)).1.trans (by decide)⟩

/-! ### Claim C1 — failed sales write nothing -/

/-- Claim C1: whenever the sale handler reports any error (missing
fields, bad phone, duplicate line, empty transaction, invalid or
non-positive quantity, unknown book, or insufficient stock), the book
table, the sales ledger and the cache are all exactly as before the
call. -/
theorem sell_error_preserves_state (cn pn tx : Str) (bids qs : List Str)
    (db : List Book) (sales : List SaleLine) (cache : Cache)
    (e : SellError)
    (h : (sell cn pn bids qs tx db sales cache).result = .error e) :
    (sell cn pn bids qs tx db sales cache).db = db ∧
      (sell cn pn bids qs tx db sales cache).sales = sales ∧
      (sell cn pn bids qs tx db sales cache).cache = cache := by
  revert h
  unfold sell
  dsimp only
  repeat' split
  all_goals intro h
  all_goals first
    | exact ⟨rfl, rfl, rfl⟩
    | exact Except.noConfusion h

/-- Witness for C1: a one-line sale requesting 9 of a stock of 5 fails
with insufficient stock and leaves table, ledger and cache untouched. -/
theorem sell_error_preserves_state_witness :
    (sell (S "Al") (S "0123456789") [S "B1"] [S "9"] (S "T1") dbAB []
        []).db = dbAB ∧
      (sell (S "Al") (S "0123456789") [S "B1"] [S "9"] (S "T1") dbAB []
        []).sales = [] ∧
      (sell (S "Al") (S "0123456789") [S "B1"] [S "9"] (S "T1") dbAB []
        []).cache = [] :=
  sell_error_preserves_state (S "Al") (S "0123456789") (S "T1") [S "B1"]
    [S "9"] dbAB [] [] (.insufficientStock (S "B1")) (by decide)

/-! ### Claim C7 — committed mutations clear the cache -/

/-- Claim C7: each of the three book-row mutations — the sale handler,
the add-book handler and the stock-update handler — leaves the cache
empty whenever it returns success. -/
theorem mutations_clear_cache (cn pn tx : Str) (bids qs : List Str)
    (db : List Book) (sales : List SaleLine) (cache : Cache)
    (aid aname agenre aauthor apub aqty aprice uid uact uqty : Str) :
    (∀ r, (sell cn pn bids qs tx db sales cache).result = .ok r →
      (sell cn pn bids qs tx db sales cache).cache = []) ∧
    (∀ u, (add_book aid aname agenre aauthor apub aqty aprice db
        cache).result = .ok u →
      (add_book aid aname agenre aauthor apub aqty aprice db
        cache).cache = []) ∧
    (∀ n, (update_stock uid uact uqty db cache).result = .ok n →
      (update_stock uid uact uqty db cache).cache = []) := by
  refine ⟨?_, ?_, ?_⟩
  · intro r
    unfold sell
    dsimp only
    repeat' split
    all_goals intro h
    all_goals first
      | rfl
      | exact Except.noConfusion h
  · intro u
    unfold add_book
    dsimp only
    repeat' split
    all_goals intro h
    all_goals first
      | rfl
      | exact Except.noConfusion h
  · intro n
    unfold update_stock
    dsimp only
    repeat' split
    all_goals intro h
    all_goals first
      | rfl
      | exact Except.noConfusion h

/-- Witness for C7: a successful sale, a successful add and a successful
stock update each leave the cache empty, starting from a nonempty
cache. -/
theorem mutations_clear_cache_witness :
    (sell (S "Al") (S "0123456789") [S "B1"] [S "2"] (S "T1") dbAB []
        [(S "B1", bkA, 0)]).cache = [] ∧
      (add_book (S "B3") (S "Gamma") (S "Fic") (S "C") (S "P") (S "4")
        (S "50") dbAB [(S "B1", bkA, 0)]).cache = [] ∧
      (update_stock (S "B1") (S "add") (S "2") dbAB
        [(S "B1", bkA, 0)]).cache = [] :=
  ⟨(mutations_clear_cache (S "Al") (S "0123456789") (S "T1") [S "B1"]
      [S "2"] dbAB [] [(S "B1", bkA, 0)] (S "B3") (S "Gamma") (S "Fic")
      (S "C") (S "P") (S "4") (S "50") (S "B1") (S "add") (S "2")).1
      ⟨S "T1", 200, [⟨S "B1", S "Alpha", 2, 100⟩]⟩ (by decide),
   (mutations_clear_cache (S "Al") (S "0123456789") (S "T1") [S "B1"]
      [S "2"] dbAB [] [(S "B1", bkA, 0)] (S "B3") (S "Gamma") (S "Fic")
      (S "C") (S "P") (S "4") (S "50") (S "B1") (S "add") (S "2")).2.1
      () (by decide),
   (mutations_clear_cache (S "Al") (S "0123456789") (S "T1") [S "B1"]
      [S "2"] dbAB [] [(S "B1", bkA, 0)] (S "B3") (S "Gamma") (S "Fic")
      (S "C") (S "P") (S "4") (S "50") (S "B1") (S "add") (S "2")).2.2
      7 (by decide)⟩

/-! ### Claim C6 — phone validation (corrected) -/

/-- Counterexample to C6 as stated: an empty phone number is not ten
ASCII digits, yet the sale fails with the missing-fields error of the
earlier required-fields check, not with the invalid-phone error. -/
theorem empty_phone_missing_fields_cex :
    (sell (S "Al") (S "") [S "B1"] [S "1"] (S "T1") dbAB [] []).result
        = .error .missingFields ∧
      (Except.error SellError.missingFields :
          Except SellError SellOk) ≠ .error .invalidPhone := by
  exact ⟨by decide, by decide⟩

/-- Claim C6 as amended: for every request whose customer name, phone
and book list pass the required-fields check, a phone that is not
exactly 10 digits fails with the invalid-phone error — before any line
validation or write, regardless of the book table, ledger and cache. -/
theorem sell_invalid_phone_spec (cn pn tx : Str) (bids qs : List Str)
    (db : List Book) (sales : List SaleLine) (cache : Cache)
    (hc : ¬ pyStrip cn = []) (hp : ¬ pyStrip pn = [])
    (hb : ¬ bids = [])
    (hbad : ¬ (pyStrIsdigit (pyStrip pn) = true ∧
      (pyStrip pn).length = 10)) :
    (sell cn pn bids qs tx db sales cache).result = .error .invalidPhone ∧
      (sell cn pn bids qs tx db sales cache).db = db ∧
      (sell cn pn bids qs tx db sales cache).sales = sales ∧
      (sell cn pn bids qs tx db sales cache).cache = cache := by
  unfold sell
  dsimp only
  rw [if_neg (by push_neg; exact ⟨hc, hp, hb⟩), if_pos hbad]
  exact ⟨rfl, rfl, rfl, rfl⟩

/-- Witness for the amended C6: a 5-digit phone fails with the
invalid-phone error and touches nothing. -/
theorem sell_invalid_phone_spec_witness :
    (sell (S "Al") (S "12345") [S "B1"] [S "1"] (S "T1") dbAB []
        []).result = .error .invalidPhone ∧
      (sell (S "Al") (S "12345") [S "B1"] [S "1"] (S "T1") dbAB []
        []).db = dbAB ∧
      (sell (S "Al") (S "12345") [S "B1"] [S "1"] (S "T1") dbAB []
        []).sales = [] ∧
      (sell (S "Al") (S "12345") [S "B1"] [S "1"] (S "T1") dbAB []
        []).cache = [] :=
  sell_invalid_phone_spec (S "Al") (S "12345") (S "T1") [S "B1"] [S "1"]
    dbAB [] [] (by decide) (by decide) (by decide) (by decide)

/-! ### Claim C5 — normalization (corrected) -/

lemma validateLoop_ne_emptyTransaction (db : List Book) :
    ∀ (l : List (Str × Str)) (acc : List LineItem) (t : Int),
      validateLoop db l acc t ≠ .error .emptyTransaction := by
  intro l
  induction l with
  | nil => intro acc t h; exact Except.noConfusion h
  | cons p rest ih =>
    intro acc t h
    obtain ⟨bid, qs⟩ := p
    unfold validateLoop at h
    split at h
    · exact SellError.noConfusion (Except.error.inj h)
    · split at h
      · exact SellError.noConfusion (Except.error.inj h)
      · split at h
        · exact SellError.noConfusion (Except.error.inj h)
        · split at h
          · exact SellError.noConfusion (Except.error.inj h)
          · exact ih _ _ h

lemma keepPair_iff (p : Str × Str) :
    keepPair p = true ↔
      (¬ p.1 = [] ∧ ¬ pyStrip p.1 = [] ∧ ¬ p.2 = [] ∧
        ¬ pyStrip p.2 = []) := by
  simp [keepPair]

/-- The normalization loop keeps exactly the pairs whose components are
nonempty, strips them, and succeeds whenever the kept stripped ids are
distinct. -/
lemma normalize_eq_filter (l : List (Str × Str)) (acc : List (Str × Str))
    (hnd : (acc.map Prod.fst ++
      ((l.filter keepPair).map stripPair).map Prod.fst).Nodup) :
    normalize l acc = .ok (acc ++ (l.filter keepPair).map stripPair) := by
  induction l generalizing acc with
  | nil => simp [normalize]
  | cons p rest ih =>
    obtain ⟨pb, pq⟩ := p
    by_cases hk : (¬ pb = [] ∧ ¬ pyStrip pb = [] ∧ ¬ pq = [] ∧
        ¬ pyStrip pq = [])
    · have hkb : keepPair (pb, pq) = true := (keepPair_iff _).2 hk
      rw [List.filter_cons_of_pos hkb] at hnd ⊢
      have hmem : pyStrip pb ∉ acc.map Prod.fst := by
        intro hin
        have := List.Nodup.not_mem
          ((@List.nodup_middle _ (pyStrip pb) (acc.map Prod.fst)
            (((rest.filter keepPair).map stripPair).map Prod.fst)).1
            (by simpa [stripPair] using hnd))
        exact this (by simp [hin])
      unfold normalize
      rw [if_pos hk, if_neg hmem]
      rw [ih (acc ++ [(pyStrip pb, pyStrip pq)]) (by
        simpa [stripPair, List.append_assoc] using hnd)]
      simp [stripPair, List.append_assoc]
    · have hkb : keepPair (pb, pq) = false := by
        rw [← Bool.not_eq_true, keepPair_iff]
        exact hk
      rw [List.filter_cons_of_neg (by simp [hkb])] at hnd ⊢
      unfold normalize
      rw [if_neg hk]
      exact ih acc hnd

/-- Counterexample to C5 as stated: the pair `("B1", "0")` has a
non-positive quantity, yet normalization keeps it, and the sale then
fails with the quantity-must-be-positive error instead of the
empty-transaction error the claim would require. -/
theorem normalize_keeps_nonpositive_cex :
    normalize [(S "B1", S "0")] [] = .ok [(S "B1", S "0")] ∧
      (sell (S "Al") (S "0123456789") [S "B1"] [S "0"] (S "T1") dbAB []
        []).result = .error (.nonPositiveQuantity (S "B1")) ∧
      (Except.error (SellError.nonPositiveQuantity (S "B1")) :
          Except SellError SellOk) ≠ .error .emptyTransaction := by
  exact ⟨by decide, by decide, by decide⟩

/-- Claim C5 as amended: normalization drops exactly the pairs with an
empty (after stripping) book id or quantity — non-positive quantities
survive it and are rejected later, in validation — and the sale is
rejected with the empty-transaction error if and only if no pairs
remain after normalization. -/
theorem sell_normalization_spec (cn pn tx : Str) (bids qs : List Str)
    (db : List Book) (sales : List SaleLine) (cache : Cache)
    (hc : ¬ pyStrip cn = []) (hp : ¬ pyStrip pn = [])
    (hb : ¬ bids = [])
    (hdig : pyStrIsdigit (pyStrip pn) = true)
    (hlen : (pyStrip pn).length = 10)
    (hnd : ((((bids.zip qs).filter keepPair).map stripPair).map
      Prod.fst).Nodup) :
    normalize (bids.zip qs) []
        = .ok (((bids.zip qs).filter keepPair).map stripPair) ∧
      ((sell cn pn bids qs tx db sales cache).result
          = .error .emptyTransaction ↔
        (bids.zip qs).filter keepPair = []) := by
  have hnorm := normalize_eq_filter (bids.zip qs) [] (by simpa using hnd)
  rw [List.nil_append] at hnorm
  refine ⟨hnorm, ?_⟩
  unfold sell
  dsimp only
  rw [if_neg (by push_neg; exact ⟨hc, hp, hb⟩),
    if_neg (not_not_intro ⟨hdig, hlen⟩), hnorm]
  by_cases hke : ((bids.zip qs).filter keepPair).map stripPair = []
  · simp only [hke, if_true]
    simpa using hke
  · simp only [hke, if_false]
    constructor
    · intro h
      cases hval : validateLoop db
          (((bids.zip qs).filter keepPair).map stripPair) [] 0 with
      | error e =>
        rw [hval] at h
        have he : e = .emptyTransaction := Except.error.inj h
        exact absurd (he ▸ hval) (validateLoop_ne_emptyTransaction db _ _ _)
      | ok out =>
        rw [hval] at h
        exact Except.noConfusion h
    · intro h
      exact absurd (by simp [h]) hke

/-- Witness for the amended C5: a request with one blank line and one
real line keeps exactly the real line, and a request whose only pair has
a blank book id is rejected as empty. -/
theorem sell_normalization_spec_witness :
    (normalize [(S " ", S "1"), (S "B1", S "2")] []
        = .ok [(S "B1", S "2")] ∧
      ((sell (S "Al") (S "0123456789") [S " ", S "B1"] [S "1", S "2"]
          (S "T1") dbAB [] []).result = .error .emptyTransaction ↔
        [(S " ", S "1"), (S "B1", S "2")].filter keepPair = [])) ∧
      (sell (S "Al") (S "0123456789") [S " "] [S "1"] (S "T1") dbAB []
        []).result = .error .emptyTransaction :=
  ⟨sell_normalization_spec (S "Al") (S "0123456789") (S "T1")
      [S " ", S "B1"] [S "1", S "2"] dbAB [] [] (by decide) (by decide)
      (by decide) (by decide) (by decide) (by decide),
   (sell_normalization_spec (S "Al") (S "0123456789") (S "T1") [S " "]
      [S "1"] dbAB [] [] (by decide) (by decide) (by decide) (by decide)
      (by decide) (by decide)).2.2 (by decide)⟩

/-! ### Claim C2 — valid sales commit with the right total and one id -/

/-- Unfolding of a successful validation pass: the accumulated lines
extend the accumulator, the running total adds exactly the per-line
`price × quantity` subtotals, the lines correspond pairwise and in order
to the validated pairs — each line's book id is the pair's id and each
line's quantity is exactly the integer parsed from the pair's quantity
string — and every line snapshots the name and price of the book found
in the pre-call table with a positive, covered quantity. -/
lemma validateLoop_ok_spec (db : List Book) :
    ∀ (l : List (Str × Str)) (acc : List LineItem) (t : Int)
      (ls : List LineItem) (tot : Int),
      validateLoop db l acc t = .ok (ls, tot) →
      ∃ new, ls = acc ++ new ∧
        tot = t + (new.map (fun li => li.price * li.quantity)).sum ∧
        new.map (fun li => li.book_id) = l.map Prod.fst ∧
        List.Forall₂ (fun li (p : Str × Str) => li.book_id = p.1 ∧
          pyParseInt p.2 = some li.quantity) new l ∧
        ∀ li ∈ new, ∃ b, findBook db li.book_id = some b ∧
          b.bookName = li.book_name ∧ b.price = li.price ∧
          0 < li.quantity ∧ li.quantity ≤ b.quantity := by
  intro l
  induction l with
  | nil =>
    intro acc t ls tot h
    unfold validateLoop at h
    obtain ⟨h1, h2⟩ := Prod.mk.injEq .. ▸ Except.ok.inj h
    refine ⟨[], by simp [← h1], by simp [← h2], by simp,
      List.Forall₂.nil, by simp⟩
  | cons p rest ih =>
    intro acc t ls tot h
    obtain ⟨bid, qs⟩ := p
    unfold validateLoop at h
    split at h
    · exact Except.noConfusion h
    rename_i q hq
    split at h
    · exact Except.noConfusion h
    rename_i hqpos
    split at h
    · exact Except.noConfusion h
    rename_i book hbook
    split at h
    · exact Except.noConfusion h
    rename_i hstock
    obtain ⟨new, hls, htot, hids, hfa, hmem⟩ := ih _ _ _ _ h
    refine ⟨⟨bid, book.bookName, q, book.price⟩ :: new, ?_, ?_, ?_, ?_, ?_⟩
    · rw [hls, List.append_assoc]
      rfl
    · rw [htot]
      simp only [List.map_cons, List.sum_cons]
      ring
    · simp [hids]
    · exact List.Forall₂.cons ⟨rfl, hq⟩ hfa
    · intro li hli
      rcases List.mem_cons.1 hli with rfl | hli
      · exact ⟨book, hbook, rfl, rfl, by show 0 < q; omega,
          by show q ≤ book.quantity; omega⟩
      · exact hmem li hli

/-- When every pair parses to a positive quantity with a known book and
sufficient stock, the validation pass succeeds. -/
lemma validateLoop_ok_of_valid (db : List Book) :
    ∀ (l : List (Str × Str)) (acc : List LineItem) (t : Int),
      (∀ p ∈ l, ∃ q, pyParseInt p.2 = some q ∧ 0 < q ∧
        ∃ b, findBook db p.1 = some b ∧ q ≤ b.quantity) →
      ∃ out, validateLoop db l acc t = .ok out := by
  intro l
  induction l with
  | nil =>
    intro acc t _
    exact ⟨(acc, t), rfl⟩
  | cons p rest ih =>
    intro acc t hval
    obtain ⟨bid, qs⟩ := p
    obtain ⟨q, hq, hqpos, b, hb, hle⟩ :=
      hval (bid, qs) (List.mem_cons_self _ _)
    dsimp only at hq hb
    unfold validateLoop
    rw [hq]
    dsimp only
    rw [if_neg (by omega), hb]
    dsimp only
    rw [if_neg (by omega)]
    exact ih _ _ (fun p hp => hval p (List.mem_cons_of_mem _ hp))

/-- The insert-and-decrement loop appends one ledger row per line, in
order, and folds the quantity decrements over the table. -/
lemma applyLoop_spec (tx cust phone : Str) :
    ∀ (lines : List LineItem) (db : List Book) (sales : List SaleLine),
      (applyLoop tx cust phone lines db sales).2
          = sales ++ lines.map (mkSaleLine tx cust phone) ∧
        (applyLoop tx cust phone lines db sales).1
          = lines.foldl (fun d li => decQty d li.book_id li.quantity) db := by
  intro lines
  induction lines with
  | nil =>
    intro db sales
    simp [applyLoop]
  | cons l rest ih =>
    intro db sales
    unfold applyLoop
    obtain ⟨ih2, ih1⟩ := ih (decQty db l.book_id l.quantity)
      (sales ++ [mkSaleLine tx cust phone l])
    exact ⟨by rw [ih2]; simp, by rw [ih1]; simp⟩

/-- Claim C2: a multi-line sale request in which every line parses to a
positive quantity of a known book with sufficient stock commits with
total `Σ quantity × price-at-validation-time` (prices read from the
pre-call table), appends one ledger row per line, and every appended row
carries the one shared transaction identifier.  The returned breakdown
is tied to the request pairwise: line `i`'s book id is the `i`-th
normalized pair's id and line `i`'s quantity is exactly the integer
parsed from that pair's requested-quantity string. -/
theorem sell_valid_commits (cn pn tx : Str) (bids qs : List Str)
    (db : List Book) (sales : List SaleLine) (cache : Cache)
    (hc : ¬ pyStrip cn = []) (hb : ¬ bids = [])
    (hdig : pyStrIsdigit (pyStrip pn) = true)
    (hlen : (pyStrip pn).length = 10)
    (kept : List (Str × Str))
    (hnorm : normalize (bids.zip qs) [] = .ok kept) (hkne : ¬ kept = [])
    (hvalid : ∀ p ∈ kept, ∃ q, pyParseInt p.2 = some q ∧ 0 < q ∧
      ∃ b, findBook db p.1 = some b ∧ q ≤ b.quantity) :
    ∃ r : SellOk, (sell cn pn bids qs tx db sales cache).result = .ok r ∧
      r.transaction_id = tx ∧
      r.total = (r.lines.map (fun li => li.price * li.quantity)).sum ∧
      r.lines.map (fun li => li.book_id) = kept.map Prod.fst ∧
      List.Forall₂ (fun li (p : Str × Str) => li.book_id = p.1 ∧
        pyParseInt p.2 = some li.quantity) r.lines kept ∧
      (∀ li ∈ r.lines, ∃ b, findBook db li.book_id = some b ∧
        b.bookName = li.book_name ∧ b.price = li.price) ∧
      (sell cn pn bids qs tx db sales cache).sales
        = sales ++ r.lines.map (mkSaleLine tx (pyStrip cn) (pyStrip pn)) ∧
      ∀ s ∈ r.lines.map (mkSaleLine tx (pyStrip cn) (pyStrip pn)),
        s.transaction_id = tx := by
  have hp : ¬ pyStrip pn = [] := by
    intro hnil
    rw [hnil] at hdig
    exact Bool.noConfusion hdig
  obtain ⟨⟨ls, tot⟩, hval⟩ := validateLoop_ok_of_valid db kept [] 0 hvalid
  obtain ⟨new, hls, htot, hids, hfa, hmem⟩ :=
    validateLoop_ok_spec db kept [] 0 ls tot hval
  rw [List.nil_append] at hls
  subst hls
  unfold sell
  dsimp only
  rw [if_neg (by push_neg; exact ⟨hc, hp, hb⟩),
    if_neg (not_not_intro ⟨hdig, hlen⟩), hnorm]
  dsimp only
  rw [if_neg hkne, hval]
  dsimp only
  refine ⟨⟨tx, tot, ls⟩, rfl, rfl, by simpa using htot, hids, hfa,
    ?_, ?_, ?_⟩
  · intro li hli
    obtain ⟨b, hb1, hb2, hb3, _, _⟩ := hmem li hli
    exact ⟨b, hb1, hb2, hb3⟩
  · exact (applyLoop_spec tx (pyStrip cn) (pyStrip pn) ls db sales).1
  · intro s hs
    obtain ⟨li, _, rfl⟩ := List.mem_map.1 hs
    rfl

/-- Witness for C2: selling 2 × B1 (price 100) and 1 × B2 (price 150)
commits with each line carrying exactly the requested quantity and both
ledger rows sharing transaction id T1; concretely the sale returns
total 350 = 2 × 100 + 1 × 150 with the expected breakdown. -/
theorem sell_valid_commits_witness :
    (∃ r : SellOk,
      (sell (S "Al") (S "0123456789") [S "B1", S "B2"] [S "2", S "1"]
          (S "T1") dbAB [] []).result = .ok r ∧
        r.transaction_id = S "T1" ∧
        r.total = (r.lines.map (fun li => li.price * li.quantity)).sum ∧
        r.lines.map (fun li => li.book_id)
          = [(S "B1", S "2"), (S "B2", S "1")].map Prod.fst ∧
        List.Forall₂ (fun li (p : Str × Str) => li.book_id = p.1 ∧
          pyParseInt p.2 = some li.quantity) r.lines
          [(S "B1", S "2"), (S "B2", S "1")] ∧
        (∀ li ∈ r.lines, ∃ b, findBook dbAB li.book_id = some b ∧
          b.bookName = li.book_name ∧ b.price = li.price) ∧
        (sell (S "Al") (S "0123456789") [S "B1", S "B2"] [S "2", S "1"]
            (S "T1") dbAB [] []).sales
          = [] ++ r.lines.map (mkSaleLine (S "T1") (pyStrip (S "Al"))
              (pyStrip (S "0123456789"))) ∧
        ∀ s ∈ r.lines.map (mkSaleLine (S "T1") (pyStrip (S "Al"))
            (pyStrip (S "0123456789"))), s.transaction_id = S "T1") ∧
      (sell (S "Al") (S "0123456789") [S "B1", S "B2"] [S "2", S "1"]
          (S "T1") dbAB [] []).result
        = .ok ⟨S "T1", 350, [⟨S "B1", S "Alpha", 2, 100⟩,
            ⟨S "B2", S "Beta", 1, 150⟩]⟩ :=
  ⟨sell_valid_commits (S "Al") (S "0123456789") (S "T1") [S "B1", S "B2"]
    [S "2", S "1"] dbAB [] [] (by decide) (by decide) (by decide)
    (by decide) [(S "B1", S "2"), (S "B2", S "1")] (by decide) (by decide)
    (by
      intro p hp
      rcases List.mem_cons.1 hp with rfl | hp
      · exact ⟨2, by decide, by decide, bkA, by decide, by decide⟩
      rcases List.mem_cons.1 hp with rfl | hp
      · exact ⟨1, by decide, by decide, bkB, by decide, by decide⟩
      · exact absurd hp (List.not_mem_nil p)),
   by decide⟩

/-! ### Claim C10 — frame property of a committed sale -/

/-- The duplicate check inside the normalization loop guarantees that
the ids it returns are pairwise distinct. -/
lemma normalize_ok_nodup : ∀ (l acc out : List (Str × Str)),
    normalize l acc = .ok out → (acc.map Prod.fst).Nodup →
    (out.map Prod.fst).Nodup := by
  intro l
  induction l with
  | nil =>
    intro acc out h hnd
    unfold normalize at h
    rw [← Except.ok.inj h]
    exact hnd
  | cons p rest ih =>
    intro acc out h hnd
    obtain ⟨pb, pq⟩ := p
    unfold normalize at h
    split at h
    · dsimp only at h
      split at h
      · exact Except.noConfusion h
      · rename_i hmem
        refine ih _ _ h ?_
        rw [List.map_append, List.nodup_append]
        refine ⟨hnd, by simp, ?_⟩
        intro a ha hb
        simp only [List.map_cons, List.map_nil, List.mem_singleton] at hb
        subst hb
        exact hmem ha
    · exact ih _ _ h hnd

/-- The per-row effect of one line of the decrement loop. -/
def rowDec (x : Book) (li : LineItem) : Book :=
  if x.bookid = li.book_id then
    ⟨x.bookid, x.bookName, x.genre, x.quantity - li.quantity, x.author,
      x.publication, x.price⟩
  else x

lemma rowDec_foldl_of_no_match (x : Book) :
    ∀ (lines : List LineItem), (∀ li ∈ lines, ¬ x.bookid = li.book_id) →
      lines.foldl rowDec x = x := by
  intro lines
  induction lines with
  | nil => intro _; rfl
  | cons l rest ih =>
    intro hno
    rw [List.foldl_cons,
      show rowDec x l = x from if_neg (hno l (List.mem_cons_self _ _))]
    exact ih (fun li hli => hno li (List.mem_cons_of_mem _ hli))

/-- Folding the per-line updates over one row, when the line ids are
pairwise distinct, applies at most the first matching line. -/
lemma rowDec_foldl_eq (x : Book) :
    ∀ (lines : List LineItem),
      (lines.map (fun li => li.book_id)).Nodup →
      lines.foldl rowDec x
        = match lines.find? (fun li => x.bookid = li.book_id) with
          | none => x
          | some li => ⟨x.bookid, x.bookName, x.genre,
              x.quantity - li.quantity, x.author, x.publication, x.price⟩ := by
  intro lines
  induction lines with
  | nil => intro _; rfl
  | cons l rest ih =>
    intro hnd
    rw [List.map_cons, List.nodup_cons] at hnd
    rw [List.foldl_cons]
    by_cases hb : x.bookid = l.book_id
    · rw [show rowDec x l = ⟨x.bookid, x.bookName, x.genre,
        x.quantity - l.quantity, x.author, x.publication, x.price⟩
        from if_pos hb]
      rw [rowDec_foldl_of_no_match _ rest (by
        intro li hli heq
        exact hnd.1 (by
          rw [hb] at heq
          exact heq ▸ List.mem_map_of_mem _ hli))]
      conv_rhs => rw [List.find?]
      rw [show decide (x.bookid = l.book_id) = true from decide_eq_true hb]
    · rw [show rowDec x l = x from if_neg hb]
      rw [ih hnd.2]
      conv_rhs => rw [List.find?]
      rw [show decide (x.bookid = l.book_id) = false from
        decide_eq_false hb]

/-- Folding the per-line decrements over the table, when the line ids
are pairwise distinct, rewrites each row at most once: a row whose id
appears in the lines loses exactly that line's quantity and keeps every
other field; any other row is untouched. -/
lemma foldl_decQty_eq : ∀ (lines : List LineItem) (db : List Book),
    (lines.map (fun li => li.book_id)).Nodup →
    lines.foldl (fun d li => decQty d li.book_id li.quantity) db
      = db.map (fun b =>
          match lines.find? (fun li => b.bookid = li.book_id) with
          | none => b
          | some li => ⟨b.bookid, b.bookName, b.genre,
              b.quantity - li.quantity, b.author, b.publication,
              b.price⟩) := by
  have hmapfold : ∀ (lines : List LineItem) (db : List Book),
      lines.foldl (fun d li => decQty d li.book_id li.quantity) db
        = db.map (fun b => lines.foldl rowDec b) := by
    intro lines
    induction lines with
    | nil =>
      intro db
      simp
    | cons l rest ih =>
      intro db
      rw [List.foldl_cons, ih (decQty db l.book_id l.quantity)]
      unfold decQty
      rw [List.map_map]
      apply List.map_congr_left
      intro b _
      rw [List.foldl_cons]
      rfl
  intro lines db hnd
  rw [hmapfold lines db]
  apply List.map_congr_left
  intro b _
  exact rowDec_foldl_eq b lines hnd

/-- Claim C10 (implicit frame property): when a sale commits, its lines
correspond pairwise and in order to the request's normalized (book id,
quantity) pairs — each line's book id is the pair's stripped id and
each line's quantity is exactly the integer parsed from the pair's
requested-quantity string — the line ids are pairwise distinct, and the
resulting book table is the pre-call table in which each row named by a
line has its quantity decreased by exactly that line's requested
quantity — name, genre, author, publisher and price untouched — and
each row not named by any line is entirely unchanged. -/
theorem sell_success_frame (cn pn tx : Str) (bids qs : List Str)
    (db : List Book) (sales : List SaleLine) (cache : Cache) (r : SellOk)
    (h : (sell cn pn bids qs tx db sales cache).result = .ok r) :
    (r.lines.map (fun li => li.book_id)).Nodup ∧
      (∃ kept, normalize (bids.zip qs) [] = .ok kept ∧
        List.Forall₂ (fun li (p : Str × Str) => li.book_id = p.1 ∧
          pyParseInt p.2 = some li.quantity) r.lines kept) ∧
      (sell cn pn bids qs tx db sales cache).db
        = db.map (fun b =>
            match r.lines.find? (fun li => b.bookid = li.book_id) with
            | none => b
            | some li => ⟨b.bookid, b.bookName, b.genre,
                b.quantity - li.quantity, b.author, b.publication,
                b.price⟩) := by
  unfold sell at h ⊢
  dsimp only at h ⊢
  by_cases h1 : (pyStrip cn = [] ∨ pyStrip pn = [] ∨ bids = [])
  · rw [if_pos h1] at h
    exact absurd h (by simp)
  rw [if_neg h1] at h ⊢
  by_cases h2 : ¬ (pyStrIsdigit (pyStrip pn) = true ∧
      (pyStrip pn).length = 10)
  · rw [if_pos h2] at h
    exact absurd h (by simp)
  rw [if_neg h2] at h ⊢
  cases hnorm : normalize (bids.zip qs) [] with
  | error bid =>
    rw [hnorm] at h
    exact absurd h (by simp)
  | ok kept =>
    rw [hnorm] at h
    dsimp only at h ⊢
    by_cases hke : kept = []
    · rw [if_pos hke] at h
      exact absurd h (by simp)
    rw [if_neg hke] at h ⊢
    cases hval : validateLoop db kept [] 0 with
    | error e =>
      rw [hval] at h
      exact absurd h (by simp)
    | ok out =>
      obtain ⟨lines, total⟩ := out
      rw [hval] at h
      dsimp only at h ⊢
      obtain rfl : (⟨tx, total, lines⟩ : SellOk) = r := Except.ok.inj h
      dsimp only
      obtain ⟨new, hls, _, hids, hfa, _⟩ :=
        validateLoop_ok_spec db kept [] 0 lines total hval
      rw [List.nil_append] at hls
      subst hls
      have hknd : (kept.map Prod.fst).Nodup :=
        normalize_ok_nodup _ _ _ hnorm (by simp)
      have hlnd : (lines.map (fun li => li.book_id)).Nodup := by
        rw [hids]
        exact hknd
      refine ⟨hlnd, ⟨kept, rfl, hfa⟩, ?_⟩
      rw [(applyLoop_spec tx (pyStrip cn) (pyStrip pn) lines db sales).2]
      exact foldl_decQty_eq lines db hlnd

/-- Witness for C10: after the two-line sale of the C2 witness, the
committed lines match the request's normalized pairs with quantities 2
and 1, B1 drops from 5 to 3, B2 from 3 to 2, and every other field of
both rows is unchanged. -/
theorem sell_success_frame_witness :
    ((⟨S "T1", 350, [⟨S "B1", S "Alpha", 2, 100⟩,
        ⟨S "B2", S "Beta", 1, 150⟩]⟩ : SellOk).lines.map
          (fun li => li.book_id)).Nodup ∧
      (∃ kept, normalize ([S "B1", S "B2"].zip [S "2", S "1"]) []
          = .ok kept ∧
        List.Forall₂ (fun li (p : Str × Str) => li.book_id = p.1 ∧
          pyParseInt p.2 = some li.quantity)
          (⟨S "T1", 350, [⟨S "B1", S "Alpha", 2, 100⟩,
            ⟨S "B2", S "Beta", 1, 150⟩]⟩ : SellOk).lines kept) ∧
      (sell (S "Al") (S "0123456789") [S "B1", S "B2"] [S "2", S "1"]
          (S "T1") dbAB [] []).db
        = dbAB.map (fun b =>
            match (⟨S "T1", 350, [⟨S "B1", S "Alpha", 2, 100⟩,
                ⟨S "B2", S "Beta", 1, 150⟩]⟩ : SellOk).lines.find?
                (fun li => b.bookid = li.book_id) with
            | none => b
            | some li => ⟨b.bookid, b.bookName, b.genre,
                b.quantity - li.quantity, b.author, b.publication,
                b.price⟩) :=
  sell_success_frame (S "Al") (S "0123456789") (S "T1") [S "B1", S "B2"]
    [S "2", S "1"] dbAB [] []
    ⟨S "T1", 350, [⟨S "B1", S "Alpha", 2, 100⟩, ⟨S "B2", S "Beta", 1, 150⟩]⟩
    (by decide)

/-! ### Claim C9 — listing order and filter (corrected) -/

lemma strLtB_asymm : ∀ a b : Str, strLtB a b = true → strLtB b a = false := by
  intro a
  induction a with
  | nil =>
    intro b h
    cases b with
    | nil => exact absurd h (by decide)
    | cons d ds => rfl
  | cons c cs ih =>
    intro b h
    cases b with
    | nil => exact absurd h (by simp [strLtB])
    | cons d ds =>
      unfold strLtB at h ⊢
      by_cases h1 : c.toNat < d.toNat
      · rw [if_neg (by omega), if_neg (by omega)]
      · rw [if_neg h1] at h
        by_cases h2 : c.toNat = d.toNat
        · rw [if_pos h2] at h
          rw [if_neg (by omega), if_pos (by omega)]
          exact ih ds h
        · rw [if_neg h2] at h
          exact absurd h (by decide)

lemma strLtB_trans : ∀ a b c : Str, strLtB a b = true → strLtB b c = true →
    strLtB a c = true := by
  intro a
  induction a with
  | nil =>
    intro b c hab hbc
    cases b with
    | nil => exact absurd hab (by decide)
    | cons y ys =>
      cases c with
      | nil => exact absurd hbc (by simp [strLtB])
      | cons z zs => rfl
  | cons x xs ih =>
    intro b c hab hbc
    cases b with
    | nil => exact absurd hab (by simp [strLtB])
    | cons y ys =>
      cases c with
      | nil => exact absurd hbc (by simp [strLtB])
      | cons z zs =>
        unfold strLtB at hab hbc ⊢
        by_cases h1 : x.toNat < y.toNat
        · by_cases h2 : y.toNat < z.toNat
          · rw [if_pos (by omega)]
          · rw [if_neg h2] at hbc
            by_cases h3 : y.toNat = z.toNat
            · rw [if_pos (show x.toNat < z.toNat by omega)]
            · rw [if_neg h3] at hbc
              exact absurd hbc (by decide)
        · rw [if_neg h1] at hab
          by_cases h2 : x.toNat = y.toNat
          · rw [if_pos h2] at hab
            by_cases h3 : y.toNat < z.toNat
            · rw [if_pos (by omega)]
            · rw [if_neg h3] at hbc
              by_cases h4 : y.toNat = z.toNat
              · rw [if_pos h4] at hbc
                rw [if_neg (by omega), if_pos (by omega)]
                exact ih ys zs hab hbc
              · rw [if_neg h4] at hbc
                exact absurd hbc (by decide)
          · rw [if_neg h2] at hab
            exact absurd hab (by decide)

lemma strLtB_connex : ∀ a b : Str, strLtB a b = false →
    strLtB b a = false → a = b := by
  intro a
  induction a with
  | nil =>
    intro b h1 _
    cases b with
    | nil => rfl
    | cons d ds => exact absurd h1 (by simp [strLtB])
  | cons x xs ih =>
    intro b h1 h2
    cases b with
    | nil => exact absurd h2 (by simp [strLtB])
    | cons y ys =>
      unfold strLtB at h1 h2
      by_cases hx : x.toNat < y.toNat
      · rw [if_pos hx] at h1
        exact absurd h1 (by decide)
      by_cases hy : y.toNat < x.toNat
      · rw [if_pos hy] at h2
        exact absurd h2 (by decide)
      have hxy : x.toNat = y.toNat := by omega
      rw [if_neg hx, if_pos hxy] at h1
      rw [if_neg hy, if_pos (by omega)] at h2
      have hxs : xs = ys := ih ys h1 h2
      have hc : x = y := Char.ext (UInt32.ext hxy)
      rw [hc, hxs]

lemma strLeB_total : ∀ a b : Str, strLeB a b = true ∨ strLeB b a = true := by
  intro a b
  unfold strLeB
  by_cases h : strLtB b a = true
  · right
    rw [strLtB_asymm b a h]
    rfl
  · left
    rw [Bool.not_eq_true] at h
    rw [h]
    rfl

lemma strLeB_trans : ∀ a b c : Str, strLeB a b = true → strLeB b c = true →
    strLeB a c = true := by
  intro a b c h1 h2
  unfold strLeB at h1 h2 ⊢
  rw [Bool.not_eq_true'] at h1 h2 ⊢
  by_cases hca : strLtB c a = true
  · by_cases hab : strLtB a b = true
    · have := strLtB_trans c a b hca hab
      exact absurd this (by simp [h2])
    · rw [Bool.not_eq_true] at hab
      have hone : a = b := strLtB_connex a b hab h1
      rw [← hone] at h2
      exact absurd hca (by simp [h2])
  · rw [Bool.not_eq_true] at hca
    exact hca

lemma bookLeB_total : ∀ a b : Book, bookLeB a b = true ∨ bookLeB b a = true := by
  intro a b
  unfold bookLeB
  by_cases hg : strLtB a.genre b.genre = true
  · left
    rw [hg]
    rfl
  by_cases hg2 : strLtB b.genre a.genre = true
  · right
    rw [hg2]
    rfl
  rw [Bool.not_eq_true] at hg hg2
  have heq : a.genre = b.genre := strLtB_connex _ _ hg hg2
  rcases strLeB_total a.bookName b.bookName with h | h
  · left
    simp [heq, h]
  · right
    simp [heq, h]

lemma bookLeB_trans : ∀ a b c : Book, bookLeB a b = true →
    bookLeB b c = true → bookLeB a c = true := by
  intro a b c hab hbc
  unfold bookLeB at hab hbc ⊢
  simp only [Bool.or_eq_true, Bool.and_eq_true, decide_eq_true_eq]
    at hab hbc ⊢
  rcases hab with h1 | ⟨h1, h1n⟩ <;> rcases hbc with h2 | ⟨h2, h2n⟩
  · exact Or.inl (strLtB_trans _ _ _ h1 h2)
  · exact Or.inl (h2 ▸ h1)
  · exact Or.inl (h1 ▸ h2)
  · exact Or.inr ⟨h1.trans h2, strLeB_trans _ _ _ h1n h2n⟩

lemma orderedInsertB_perm {α : Type} (le : α → α → Bool) (a : α) :
    ∀ l, (orderedInsertB le a l).Perm (a :: l) := by
  intro l
  induction l with
  | nil => exact List.Perm.refl _
  | cons b l ih =>
    unfold orderedInsertB
    by_cases h : le a b = true
    · rw [if_pos h]
    · rw [if_neg h]
      exact (List.Perm.cons b ih).trans (List.Perm.swap a b l)

lemma insertionSortB_perm {α : Type} (le : α → α → Bool) :
    ∀ l, (insertionSortB le l).Perm l := by
  intro l
  induction l with
  | nil => exact List.Perm.refl _
  | cons a l ih =>
    unfold insertionSortB
    exact (orderedInsertB_perm le a _).trans (List.Perm.cons a ih)

lemma orderedInsertB_sorted {α : Type} (le : α → α → Bool)
    (htot : ∀ x y, le x y = true ∨ le y x = true) (a : α) :
    ∀ l, SortedB le l → SortedB le (orderedInsertB le a l) := by
  intro l
  induction l with
  | nil =>
    intro _
    exact List.chain'_singleton a
  | cons b l ih =>
    intro hs
    unfold orderedInsertB
    by_cases h : le a b = true
    · rw [if_pos h]
      exact List.chain'_cons.2 ⟨h, hs⟩
    · rw [if_neg h]
      have hba : le b a = true := (htot a b).resolve_left
        (by simpa using h)
      have hins := ih (List.Chain'.tail hs)
      show List.Chain' (fun x y => le x y = true)
        (b :: orderedInsertB le a l)
      rw [List.chain'_cons']
      refine ⟨?_, hins⟩
      intro x hx
      cases l with
      | nil =>
        simp only [orderedInsertB, List.head?_cons, Option.mem_def,
          Option.some.injEq] at hx
        rw [← hx]
        exact hba
      | cons c l2 =>
        by_cases hac : le a c = true
        · simp only [orderedInsertB, if_pos hac, List.head?_cons,
            Option.mem_def, Option.some.injEq] at hx
          rw [← hx]
          exact hba
        · simp only [orderedInsertB, if_neg hac, List.head?_cons,
            Option.mem_def, Option.some.injEq] at hx
          rw [← hx]
          exact (List.chain'_cons.1 hs).1

lemma insertionSortB_sorted {α : Type} (le : α → α → Bool)
    (htot : ∀ x y, le x y = true ∨ le y x = true) :
    ∀ l, SortedB le (insertionSortB le l) := by
  intro l
  induction l with
  | nil => exact List.chain'_nil
  | cons a l ih =>
    unfold insertionSortB
    exact orderedInsertB_sorted le htot a _ ih

instance bookLeBIsTrans : IsTrans Book (fun a b => bookLeB a b = true) :=
  ⟨bookLeB_trans⟩

/-- Counterexample to C9 as stated: a table holding genre-Z before
genre-A, both in stock, is returned by the lookup-all endpoint in stored
order, not in (genre, name) order — its query has no `ORDER BY` — while
the ordered listing puts the genre-A row first. -/
theorem get_all_books_unsorted_cex :
    (get_all_books [⟨S "B1", S "A", S "Z", 5, S "A", S "P", 100⟩,
        ⟨S "B2", S "B", S "A", 3, S "B", S "P", 150⟩]).1
      = [⟨S "B1", S "A", 100, 5⟩, ⟨S "B2", S "B", 150, 3⟩] ∧
    sellGetBooks [⟨S "B1", S "A", S "Z", 5, S "A", S "P", 100⟩,
        ⟨S "B2", S "B", S "A", 3, S "B", S "P", 150⟩]
      = [⟨S "B2", S "B", S "A", 3, S "B", S "P", 150⟩,
        ⟨S "B1", S "A", S "Z", 5, S "A", S "P", 100⟩] ∧
    (get_all_books [⟨S "B1", S "A", S "Z", 5, S "A", S "P", 100⟩,
        ⟨S "B2", S "B", S "A", 3, S "B", S "P", 150⟩]).1
      ≠ (sellGetBooks [⟨S "B1", S "A", S "Z", 5, S "A", S "P", 100⟩,
          ⟨S "B2", S "B", S "A", 3, S "B", S "P", 150⟩]).map projAll := by
  exact ⟨by decide, by decide, by decide⟩

/-- Claim C9 as amended: the sell-page listing is exactly the
positive-quantity books ordered by (genre, name), and the stock page
lists all books in that order; the lookup-all JSON endpoint returns
exactly the positive-quantity books with a correct count, but in the
table's stored order — its query has no `ORDER BY` clause, so no
ordering is guaranteed. -/
theorem listings_order_spec (db : List Book) :
    SortedB bookLeB (sellGetBooks db) ∧
      List.Pairwise (fun a b => bookLeB a b = true) (sellGetBooks db) ∧
      (sellGetBooks db).Perm (db.filter (fun b => 0 < b.quantity)) ∧
      SortedB bookLeB (stockBooks db) ∧
      (stockBooks db).Perm db ∧
      (get_all_books db).1
        = (db.filter (fun b => 0 < b.quantity)).map projAll ∧
      (get_all_books db).2
        = (db.filter (fun b => 0 < b.quantity)).length := by
  have hs1 := insertionSortB_sorted bookLeB bookLeB_total
    (db.filter (fun b => 0 < b.quantity))
  refine ⟨hs1, List.chain'_iff_pairwise.1 hs1,
    insertionSortB_perm bookLeB _,
    insertionSortB_sorted bookLeB bookLeB_total db,
    insertionSortB_perm bookLeB _, rfl, ?_⟩
  simp [get_all_books]

end Bookstore
